import Mathlib

/-!
Shallow embedding of the row-materialization engine in `scan.go` of the
wroge/scan repository.

Modelling conventions:
* A Go error value is either `nil` (modelled `Option.none`) or one of the
  constructors of `Err` below.  `errors.Join(e1, ..., ek)` returns `nil`
  when every argument is `nil` and otherwise an error wrapping the non-nil
  arguments in order; we model a joined error as the `List Err` of its
  non-nil members (so the empty list is Go's `nil` error), and
  `errors.Is(join, target)` as list membership.
* A `Rows` value (the cursor) is modelled by the data it will produce:
  the column names reported by `Columns()` (or the error that call returns),
  the list of rows `Next`/`Scan` will walk, the value of `Err()` and the
  value of `Close()`.  Each row carries the error its physical `Scan` call
  would return (none on success) together with the driver values written
  positionally into the destination slots.
* A `Scanner[T]` (built by `Func`/`Any`/`Null`/`JSON`) allocates a typed
  slot and a closure reading that slot; its observable semantics is a
  function from the scanned cell value and the current target to a
  (possibly failing) updated target, modelled by `Mutator`.
* Aggregation results record the returned value, the joined error and the
  number of times `rows.Close()` was invoked during the call, so that the
  resource-discipline claims are expressible.
-/

namespace WrogeScan

/-- Error values that can flow through the engine.  `noRows` and
`tooManyRows` are the package-level sentinels `ErrNoRows` and
`ErrTooManyRows`; the remaining constructors stand for distinct opaque
errors produced by the cursor (scan, iteration, close, column retrieval)
or by a column's mutation function. -/
inductive Err where
  | noRows : Err
  | tooManyRows : Err
  | scanFail : Nat → Err
  | mutFail : Nat → Err
  | iterFail : Nat → Err
  | closeFail : Nat → Err
  | columnsFail : Nat → Err
deriving DecidableEq, Repr

/-- The sentinel `ErrNoRows` ("sql: no rows in result set"). -/
def ErrNoRows : Err := Err.noRows

/-- The sentinel `ErrTooManyRows` ("sql: too many rows in result set"). -/
def ErrTooManyRows : Err := Err.tooManyRows

/-- Model of `errors.Join`: drop the nil arguments, keep the rest in
order.  The resulting list is empty exactly when Go's `errors.Join`
returns `nil`. -/
def joinErrs (l : List (Option Err)) : List Err := l.filterMap id

/-- Observable semantics of a `Scanner[T]` from `scan.go`: `Scan()`
returns a typed destination slot plus a closure reading that slot, so a
scanner amounts to a function taking the cell value written by the
physical scan and the current target, and returning the (possibly
failing) mutation outcome together with the updated target.  A failing
mutation may already have changed the target, as in Go. -/
abbrev Mutator (V T : Type) := V → T → Option Err × T

/-- Model of `Columns[T] = map[string]Scanner[T]`: an association list
from column name to scanner, looked up by exact name equality (Go map
keys are unique, so first-match lookup agrees with map lookup). -/
abbrev Columns (V T : Type) := List (String × Mutator V T)

/-- One row the cursor will deliver: the error its physical `Scan` call
returns (none on success) and the driver values written positionally
into the destination slots. -/
structure Row (V : Type) where
  scanErr : Option Err
  values : List V

/-- Model of a value implementing the `Rows` interface: everything the
engine can observe from the cursor. -/
structure Rows (V : Type) where
  names : List String
  columnsErr : Option Err
  rows : List (Row V)
  iterErr : Option Err
  closeErr : Option Err

/-- Go map lookup `columns[n]` on the association-list model. -/
def lookupCol {V T : Type} : Columns V T → String → Option (Mutator V T)
  | [], _ => none
  | (k, m) :: rest, n => if k = n then some m else lookupCol rest n

/-- The binding plan built by `Iter`: position `i` holds the scanner for
`names[i]` when the mapping has one, and `none` when the position is
bound to the discard destination `&ignore` (Go leaves `scanners[i]` nil
there). -/
def buildPlan {V T : Type} (cols : Columns V T) (names : List String) :
    List (Option (Mutator V T)) :=
  names.map fun n => lookupCol cols n

/-- The `for _, s := range i.scanners` loop of `Iterator.Scan`, paired
positionally with the values the physical scan wrote: nil scanners are
skipped, non-nil scanners run in declared order, and the loop returns on
the first mutation error. -/
def applyScanners {V T : Type} : List (Option (Mutator V T) × V) → T → Option Err × T
  | [], t => (none, t)
  | (none, _) :: rest, t => applyScanners rest t
  | (some m, v) :: rest, t =>
    match m v t with
    | (none, t1) => applyScanners rest t1
    | (some e, t1) => (some e, t1)

/-- Outcome of one `Iterator.Scan` call: the returned error, the state of
the target afterwards, and how many physical `rows.Scan` calls were
made. -/
structure ScanEff (T : Type) where
  err : Option Err
  target : T
  physScans : Nat
deriving DecidableEq, Repr

/-- Model of `Iterator.Scan`: one physical `rows.Scan(i.dest...)` call;
on its failure the error is returned immediately (no scanner runs),
otherwise the scanners are applied in order to the target. -/
def iterScan {V T : Type} (plan : List (Option (Mutator V T))) (r : Row V) (t : T) :
    ScanEff T :=
  match r.scanErr with
  | some e => ⟨some e, t, 1⟩
  | none =>
    let p := applyScanners (plan.zip r.values) t
    ⟨p.1, p.2, 1⟩

/-- Model of the `Iterator[T]` struct: the cursor state it still has to
walk together with the binding plan resolved at construction time. -/
structure Iterator (V T : Type) where
  rows : List (Row V)
  iterErr : Option Err
  closeErr : Option Err
  plan : List (Option (Mutator V T))

/-- Result of an aggregation call: the returned value, the joined error
(empty list = nil error) and the number of `rows.Close()` invocations
performed during the call. -/
structure Ret (A : Type) where
  value : A
  errs : List Err
  closes : Nat
deriving DecidableEq, Repr

/-- The `for i.Next()` loop of `Iterator.All`, scanning each row into a
freshly appended zero value: on a row error it returns nil and
`errors.Join(err, i.Err(), i.Close())`; on exhaustion it returns the
list and `errors.Join(i.Err(), i.Close())`. -/
def allLoop {V T : Type} (plan : List (Option (Mutator V T))) (zero : T)
    (ie ce : Option Err) : List (Row V) → Ret (Option (List T))
  | [] => ⟨some [], joinErrs [ie, ce], 1⟩
  | r :: rest =>
    match iterScan plan r zero with
    | ⟨some e, _, _⟩ => ⟨none, joinErrs [some e, ie, ce], 1⟩
    | ⟨none, t1, _⟩ =>
      match allLoop plan zero ie ce rest with
      | ⟨none, errs, n⟩ => ⟨none, errs, n⟩
      | ⟨some l, errs, n⟩ => ⟨some (t1 :: l), errs, n⟩

/-- Model of `Iterator.All`. -/
def Iterator.All {V T : Type} (i : Iterator V T) (zero : T) : Ret (Option (List T)) :=
  allLoop i.plan zero i.iterErr i.closeErr i.rows

/-- Body of `Iterator.One`, walking the remaining rows: no row gives
`errors.Join(i.Err(), i.Close(), ErrNoRows)`; a row whose scan fails
gives `errors.Join(err, i.Err())` — note the source does not call
`i.Close()` on this path; a second row gives
`errors.Join(i.Err(), i.Close(), ErrTooManyRows)`; otherwise
`errors.Join(i.Err(), i.Close())`. -/
def oneRun {V T : Type} (plan : List (Option (Mutator V T))) (zero : T)
    (ie ce : Option Err) : List (Row V) → Ret T
  | [] => ⟨zero, joinErrs [ie, ce, some ErrNoRows], 1⟩
  | r :: rest =>
    match iterScan plan r zero with
    | ⟨some e, t1, _⟩ => ⟨t1, joinErrs [some e, ie], 0⟩
    | ⟨none, t1, _⟩ =>
      match rest with
      | [] => ⟨t1, joinErrs [ie, ce], 1⟩
      | _ :: _ => ⟨t1, joinErrs [ie, ce, some ErrTooManyRows], 1⟩

/-- Model of `Iterator.One`. -/
def Iterator.One {V T : Type} (i : Iterator V T) (zero : T) : Ret T :=
  oneRun i.plan zero i.iterErr i.closeErr i.rows

/-- Body of `Iterator.First`: no row gives
`errors.Join(i.Err(), i.Close(), ErrNoRows)`; otherwise the first row is
scanned and the call returns `errors.Join(i.Scan(&typ), i.Err(), i.Close())`. -/
def firstRun {V T : Type} (plan : List (Option (Mutator V T))) (zero : T)
    (ie ce : Option Err) : List (Row V) → Ret T
  | [] => ⟨zero, joinErrs [ie, ce, some ErrNoRows], 1⟩
  | r :: _ =>
    match iterScan plan r zero with
    | ⟨eo, t1, _⟩ => ⟨t1, joinErrs [eo, ie, ce], 1⟩

/-- Model of `Iterator.First`. -/
def Iterator.First {V T : Type} (i : Iterator V T) (zero : T) : Ret T :=
  firstRun i.plan zero i.iterErr i.closeErr i.rows

/-- The `for i.Next()` loop of `Iterator.Limit` with `k` remaining slots
in the pre-allocated buffer: a row arriving with no slot left returns
nil and `errors.Join(err, i.Err(), i.Close(), ErrTooManyRows)` (the
local `err` is necessarily nil there); a row error returns nil and
`errors.Join(err, i.Err(), i.Close())`; on exhaustion the buffer is
truncated to the rows actually scanned and
`errors.Join(i.Err(), i.Close())` is returned. -/
def limitLoop {V T : Type} (plan : List (Option (Mutator V T))) (zero : T)
    (ie ce : Option Err) : List (Row V) → Nat → Ret (Option (List T))
  | [], _ => ⟨some [], joinErrs [ie, ce], 1⟩
  | _ :: _, 0 => ⟨none, joinErrs [none, ie, ce, some ErrTooManyRows], 1⟩
  | r :: rest, k + 1 =>
    match iterScan plan r zero with
    | ⟨some e, _, _⟩ => ⟨none, joinErrs [some e, ie, ce], 1⟩
    | ⟨none, t1, _⟩ =>
      match limitLoop plan zero ie ce rest k with
      | ⟨none, errs, n⟩ => ⟨none, errs, n⟩
      | ⟨some l, errs, n⟩ => ⟨some (t1 :: l), errs, n⟩

/-- Result of `Iterator.Limit`: `panicked` models the runtime panic of
`make([]T, limit)` on a negative length, which happens before the loop —
no row is consumed, no error value is returned and `Close` is never
reached; `ok` carries value, joined error and close count as in `Ret`. -/
inductive LimitRes (T : Type) where
  | panicked : LimitRes T
  | ok : Option (List T) → List Err → Nat → LimitRes T
deriving DecidableEq, Repr

/-- Joined error of a `LimitRes` (a panic produces no error value). -/
def LimitRes.errsOf {T : Type} : LimitRes T → List Err
  | .panicked => []
  | .ok _ es _ => es

/-- Model of `Iterator.Limit`: `list := make([]T, limit)` panics when
`limit < 0`; otherwise the loop runs with `limit` buffer slots. -/
def Iterator.Limit {V T : Type} (i : Iterator V T) (zero : T) (limit : Int) :
    LimitRes T :=
  if limit < 0 then .panicked
  else
    match limitLoop i.plan zero i.iterErr i.closeErr i.rows limit.toNat with
    | ⟨v, errs, n⟩ => .ok v errs n

/-- Model of `Iter`: `rows.Columns()` failing yields
`errors.Join(err, rows.Close())` (one close); otherwise the iterator is
built with the binding plan resolved once from the reported names. -/
def Iter {V T : Type} (cols : Columns V T) (c : Rows V) :
    Except (List Err) (Iterator V T) :=
  match c.columnsErr with
  | some e => .error (joinErrs [some e, c.closeErr])
  | none => .ok ⟨c.rows, c.iterErr, c.closeErr, buildPlan cols c.names⟩

/-- Model of package-level `All`. -/
def All {V T : Type} (cols : Columns V T) (c : Rows V) (zero : T) :
    Ret (Option (List T)) :=
  match Iter cols c with
  | .error errs => ⟨none, errs, 1⟩
  | .ok it => it.All zero

/-- Model of package-level `One`. -/
def One {V T : Type} (cols : Columns V T) (c : Rows V) (zero : T) : Ret T :=
  match Iter cols c with
  | .error errs => ⟨zero, errs, 1⟩
  | .ok it => it.One zero

/-- Model of package-level `First`. -/
def First {V T : Type} (cols : Columns V T) (c : Rows V) (zero : T) : Ret T :=
  match Iter cols c with
  | .error errs => ⟨zero, errs, 1⟩
  | .ok it => it.First zero

/-- Model of package-level `Limit`. -/
def Limit {V T : Type} (cols : Columns V T) (c : Rows V) (zero : T) (limit : Int) :
    LimitRes T :=
  match Iter cols c with
  | .error errs => .ok none errs 1
  | .ok it => it.Limit zero limit

/-- Appending scanner work: the loop of `Iterator.Scan` stops at the
first mutation error of the front segment, and otherwise continues with
the back segment from the front segment's output target. -/
theorem applyScanners_append {V T : Type} (l1 l2 : List (Option (Mutator V T) × V))
    (u : T) :
    applyScanners (l1 ++ l2) u =
      match applyScanners l1 u with
      | (none, u1) => applyScanners l2 u1
      | (some e, u1) => (some e, u1) := by
  induction l1 generalizing u with
  | nil => simp [applyScanners]
  | cons hd rest ih =>
    rcases hd with ⟨om, v⟩
    cases om with
    | none => simp [applyScanners, ih]
    | some m =>
      rcases hm : m v u with ⟨eo, u1⟩
      cases eo <;> simp [applyScanners, hm, ih]

/-- C9: if the cursor's physical `Scan` call fails, `Iterator.Scan`
returns that error after the single physical scan call, no scanner
mutation runs, and the target is returned exactly as it was passed in. -/
theorem iterScan_scanErr_frame {V T : Type} (plan : List (Option (Mutator V T)))
    (r : Row V) (t : T) (e : Err) (h : r.scanErr = some e) :
    iterScan plan r t = ⟨some e, t, 1⟩ := by
  simp [iterScan, h]

/-- Witness for C9 at a concrete input: a row whose physical scan fails
leaves the target 9 untouched even though a scanner that would overwrite
it is bound. -/
theorem iterScan_scanErr_frame_witness :
    iterScan [some fun (v : Int) (_ : Int) => ((none : Option Err), v)]
        ⟨some (Err.scanFail 3), [5]⟩ 9 = ⟨some (Err.scanFail 3), 9, 1⟩ :=
  iterScan_scanErr_frame _ _ 9 (Err.scanFail 3) rfl

/-- C10: for every negative limit, `Iterator.Limit` does not return
normally: `make([]T, limit)` panics before the loop, so no row is
consumed, no error value is produced and the cursor is never closed
(the `panicked` outcome carries neither). -/
theorem limit_negative_panics {V T : Type} (i : Iterator V T) (zero : T)
    (n : Int) (h : n < 0) :
    i.Limit zero n = LimitRes.panicked := by
  simp [Iterator.Limit, h]

/-- Witness for C10 at limit -1 on a one-row iterator. -/
theorem limit_negative_panics_witness :
    (Iterator.Limit ⟨[⟨none, [5]⟩], none, none, [some fun (v : Int) (_ : Int) =>
        ((none : Option Err), v)]⟩ (0 : Int) (-1)) = LimitRes.panicked :=
  limit_negative_panics _ 0 (-1) (by decide)

/-- C5: `Iterator.Scan` makes exactly one physical cursor scan call; on
its success the bound scanners run over the scanned values; the scanner
loop applies mutations in declared order (the back segment continues
from the front segment's output) and fails fast on the first error,
leaving every later scanner unapplied. -/
theorem iterScan_order_failfast {V T : Type} (plan : List (Option (Mutator V T)))
    (r : Row V) (t : T) :
    (iterScan plan r t).physScans = 1
    ∧ (r.scanErr = none →
        iterScan plan r t =
          ⟨(applyScanners (plan.zip r.values) t).1,
            (applyScanners (plan.zip r.values) t).2, 1⟩)
    ∧ (∀ (l1 l2 : List (Option (Mutator V T) × V)) (u u1 : T) (e : Err),
        applyScanners l1 u = (some e, u1) →
          applyScanners (l1 ++ l2) u = (some e, u1))
    ∧ (∀ (l1 l2 : List (Option (Mutator V T) × V)) (u u1 : T),
        applyScanners l1 u = (none, u1) →
          applyScanners (l1 ++ l2) u = applyScanners l2 u1) := by
  refine ⟨?_, ?_, ?_, ?_⟩
  · cases h : r.scanErr <;> simp [iterScan, h]
  · intro h
    simp [iterScan, h]
  · intro l1 l2 u u1 e h
    rw [applyScanners_append, h]
  · intro l1 l2 u u1 h
    rw [applyScanners_append, h]

/-- Witness for C5 at a concrete input: with two bound scanners of which
the first fails, the scan performs one physical call, returns the first
mutation error, and the second scanner (which would have overwritten the
target with 42) is never applied. -/
theorem iterScan_order_failfast_witness :
    applyScanners
        ([((some fun (_ : Int) (u : Int) => (some (Err.mutFail 7), u + 1)), (5 : Int))] ++
          [((some fun (_ : Int) (_ : Int) => ((none : Option Err), (42 : Int))), (6 : Int))])
        (0 : Int) = (some (Err.mutFail 7), 1) :=
  (iterScan_order_failfast ([] : List (Option (Mutator Int Int))) ⟨none, []⟩
      (0 : Int)).2.2.1
    [((some fun (_ : Int) (u : Int) => (some (Err.mutFail 7), u + 1)), (5 : Int))]
    _ 0 1 (Err.mutFail 7) rfl

/-- When every row scans and mutates cleanly, the `All` loop returns the
per-row materializations in cursor order together with
`errors.Join(i.Err(), i.Close())` and one close call. -/
theorem allLoop_ok {V T : Type} (plan : List (Option (Mutator V T))) (zero : T)
    (ie ce : Option Err) (rs : List (Row V))
    (h : ∀ r ∈ rs, (iterScan plan r zero).err = none) :
    allLoop plan zero ie ce rs =
      ⟨some (rs.map fun r => (iterScan plan r zero).target), joinErrs [ie, ce], 1⟩ := by
  induction rs with
  | nil => simp [allLoop]
  | cons r rest ih =>
    have hr := h r (by simp)
    have hrest : ∀ x ∈ rest, (iterScan plan x zero).err = none := by
      intro x hx
      exact h x (by simp [hx])
    rcases hs : iterScan plan r zero with ⟨eo, t1, k⟩
    rw [hs] at hr
    simp only [ScanEff.err] at hr
    subst hr
    simp [allLoop, hs, ih hrest]

/-- The close error is a member of the joined error of every exit path of
the `All` loop. -/
theorem allLoop_closeErr_mem {V T : Type} (plan : List (Option (Mutator V T)))
    (zero : T) (ie : Option Err) (e : Err) (rs : List (Row V)) :
    e ∈ (allLoop plan zero ie (some e) rs).errs := by
  induction rs with
  | nil => cases ie <;> simp [allLoop, joinErrs]
  | cons r rest ih =>
    rcases hs : iterScan plan r zero with ⟨eo, t1, k⟩
    cases eo with
    | some e1 => cases ie <;> simp [allLoop, hs, joinErrs]
    | none =>
      rcases hrec : allLoop plan zero ie (some e) rest with ⟨v, errs, n⟩
      rw [hrec] at ih
      cases v <;> simpa [allLoop, hs, hrec] using ih

/-- If the rows before `bad` all process cleanly and `bad` fails with
`e1`, then `e1` is a member of the joined error of the `All` loop. -/
theorem allLoop_firstFail_mem {V T : Type} (plan : List (Option (Mutator V T)))
    (zero : T) (ie ce : Option Err) (pre post : List (Row V)) (bad : Row V) (e1 : Err)
    (hpre : ∀ r ∈ pre, (iterScan plan r zero).err = none)
    (hbad : (iterScan plan bad zero).err = some e1) :
    e1 ∈ (allLoop plan zero ie ce (pre ++ bad :: post)).errs := by
  induction pre with
  | nil =>
    rcases hs : iterScan plan bad zero with ⟨eo, t1, k⟩
    rw [hs] at hbad
    simp only [ScanEff.err] at hbad
    subst hbad
    cases ie <;> cases ce <;> simp [allLoop, hs, joinErrs]
  | cons r rest ih =>
    have hr := hpre r (by simp)
    have hrest : ∀ x ∈ rest, (iterScan plan x zero).err = none := by
      intro x hx
      exact hpre x (by simp [hx])
    rcases hs : iterScan plan r zero with ⟨eo, t1, k⟩
    rw [hs] at hr
    simp only [ScanEff.err] at hr
    subst hr
    have ih1 := ih hrest
    rcases hrec : allLoop plan zero ie ce (rest ++ bad :: post) with ⟨v, errs, n⟩
    rw [hrec] at ih1
    cases v <;> simpa [allLoop, hs, hrec] using ih1

/-- If any row fails to scan or mutate, the `All` loop returns a nil
slice. -/
theorem allLoop_fail_value_none {V T : Type} (plan : List (Option (Mutator V T)))
    (zero : T) (ie ce : Option Err) (rs : List (Row V))
    (h : ∃ r ∈ rs, (iterScan plan r zero).err ≠ none) :
    (allLoop plan zero ie ce rs).value = none := by
  induction rs with
  | nil => simp at h
  | cons r rest ih =>
    rcases hs : iterScan plan r zero with ⟨eo, t1, k⟩
    cases eo with
    | some e1 => simp [allLoop, hs]
    | none =>
      have hrest : ∃ x ∈ rest, (iterScan plan x zero).err ≠ none := by
        rcases h with ⟨x, hx, hxe⟩
        rcases List.mem_cons.1 hx with hx1 | hx1
        · subst hx1
          rw [hs] at hxe
          simp at hxe
        · exact ⟨x, hx1, hxe⟩
      have ih1 := ih hrest
      rcases hrec : allLoop plan zero ie ce rest with ⟨v, errs, n⟩
      rw [hrec] at ih1
      simp only [Ret.value] at ih1
      subst ih1
      simp [allLoop, hs, hrec]

/-- C4: for a cursor yielding k rows with no scan, mutation, iteration or
close errors, `All` returns (with nil error and one close) the sequence
whose i-th element is the result of applying the bound columns to a
fresh zero target with row i's scanned values, and that sequence has
length exactly k (for k = 0 it is empty). -/
theorem all_materializes {V T : Type} (cols : Columns V T) (c : Rows V) (zero : T)
    (hcols : c.columnsErr = none) (hie : c.iterErr = none) (hce : c.closeErr = none)
    (hok : ∀ r ∈ c.rows, (iterScan (buildPlan cols c.names) r zero).err = none) :
    All cols c zero =
      ⟨some (c.rows.map fun r => (iterScan (buildPlan cols c.names) r zero).target),
        [], 1⟩
    ∧ (c.rows.map fun r => (iterScan (buildPlan cols c.names) r zero).target).length
        = c.rows.length := by
  constructor
  · have h1 : All cols c zero =
        allLoop (buildPlan cols c.names) zero c.iterErr c.closeErr c.rows := by
      simp [All, Iter, hcols, Iterator.All]
    rw [h1, allLoop_ok _ _ _ _ _ hok, hie, hce]
    simp [joinErrs]
  · simp

/-- Witness for C4: a two-row cursor over columns `a` (kept) and `b`
(discarded) materializes both rows in order. -/
theorem all_materializes_witness :
    All [("a", fun (v : Int) (t : Int) => ((none : Option Err), v + t))]
        ⟨["a", "b"], none, [⟨none, [7, 100]⟩, ⟨none, [8, 200]⟩], none, none⟩
        (0 : Int) = ⟨some [7, 8], [], 1⟩ :=
  (all_materializes _ _ _ rfl rfl rfl (by decide)).1

/-- C8: if scanning or mutating any row fails during `All`, the returned
slice is nil — no partially materialized list is handed back. -/
theorem all_row_failure_returns_nil {V T : Type} (cols : Columns V T) (c : Rows V)
    (zero : T)
    (h : ∃ r ∈ c.rows, (iterScan (buildPlan cols c.names) r zero).err ≠ none) :
    (All cols c zero).value = none := by
  cases hcols : c.columnsErr with
  | some e0 => simp [All, Iter, hcols]
  | none =>
    have h1 : All cols c zero =
        allLoop (buildPlan cols c.names) zero c.iterErr c.closeErr c.rows := by
      simp [All, Iter, hcols, Iterator.All]
    rw [h1]
    exact allLoop_fail_value_none _ _ _ _ _ h

/-- Witness for C8: with a clean first row and a failing second row,
`All` returns a nil slice. -/
theorem all_row_failure_returns_nil_witness :
    (All [("a", fun (v : Int) (t : Int) => ((none : Option Err), v + t))]
        ⟨["a"], none, [⟨none, [7]⟩, ⟨some (Err.scanFail 2), [8]⟩], none, none⟩
        (0 : Int)).value = none :=
  all_row_failure_returns_nil _ _ _ (by decide)

/-- C7: a failing `Close` is surfaced as a cause of the joined error of
`All` on every path (also when all row decoding succeeded), and when an
earlier row-level error occurred first, that earlier cause is preserved
in the same join alongside the close failure. -/
theorem all_close_failure_surfaced {V T : Type} (cols : Columns V T) (c : Rows V)
    (zero : T) (e : Err) (hce : c.closeErr = some e) :
    e ∈ (All cols c zero).errs
    ∧ (∀ (pre post : List (Row V)) (bad : Row V) (e1 : Err),
        c.columnsErr = none → c.rows = pre ++ bad :: post →
        (∀ r ∈ pre, (iterScan (buildPlan cols c.names) r zero).err = none) →
        (iterScan (buildPlan cols c.names) bad zero).err = some e1 →
        e1 ∈ (All cols c zero).errs) := by
  constructor
  · cases hcols : c.columnsErr with
    | some e0 => simp [All, Iter, hcols, hce, joinErrs]
    | none =>
      have h1 : All cols c zero =
          allLoop (buildPlan cols c.names) zero c.iterErr c.closeErr c.rows := by
        simp [All, Iter, hcols, Iterator.All]
      rw [h1, hce]
      exact allLoop_closeErr_mem _ _ _ _ _
  · intro pre post bad e1 hcols hrows hpre hbad
    have h1 : All cols c zero =
        allLoop (buildPlan cols c.names) zero c.iterErr c.closeErr c.rows := by
      simp [All, Iter, hcols, Iterator.All]
    rw [h1, hrows]
    exact allLoop_firstFail_mem _ _ _ _ _ _ _ _ hpre hbad

/-- Witness for C7: a close failure after one cleanly decoded row is a
cause of the joined error, and when the single row itself fails both the
row error and the close failure are causes. -/
theorem all_close_failure_surfaced_witness :
    Err.closeFail 1 ∈
      (All [("a", fun (v : Int) (t : Int) => ((none : Option Err), v + t))]
        ⟨["a"], none, [⟨none, [7]⟩], none, some (Err.closeFail 1)⟩ (0 : Int)).errs ∧
    Err.scanFail 2 ∈
      (All [("a", fun (v : Int) (t : Int) => ((none : Option Err), v + t))]
        ⟨["a"], none, [⟨some (Err.scanFail 2), [7]⟩], none,
          some (Err.closeFail 1)⟩ (0 : Int)).errs :=
  ⟨(all_close_failure_surfaced _ _ 0 (Err.closeFail 1) rfl).1,
    (all_close_failure_surfaced _ _ 0 (Err.closeFail 1) rfl).2 [] []
      ⟨some (Err.scanFail 2), [7]⟩ (Err.scanFail 2) rfl rfl (by decide) rfl⟩

/-- C1 is violated by the source: when the first row's scan fails inside
`Iterator.One`, the method returns `errors.Join(err, i.Err())` without
invoking `i.Close()`, so `One` performs zero close calls on that exit
path, while `All` and `First` close exactly once on the same cursor. -/
theorem one_scan_error_skips_close :
    One [("a", fun (v : Int) (_ : Int) => ((none : Option Err), v))]
        ⟨["a"], none, [⟨some (Err.scanFail 0), [5]⟩], none, none⟩ (0 : Int)
      = ⟨0, [Err.scanFail 0], 0⟩
    ∧ (All [("a", fun (v : Int) (_ : Int) => ((none : Option Err), v))]
        ⟨["a"], none, [⟨some (Err.scanFail 0), [5]⟩], none, none⟩ (0 : Int)).closes = 1
    ∧ (First [("a", fun (v : Int) (_ : Int) => ((none : Option Err), v))]
        ⟨["a"], none, [⟨some (Err.scanFail 0), [5]⟩], none, none⟩ (0 : Int)).closes
        = 1 := by
  exact ⟨rfl, rfl, rfl⟩

/-- C2: on a cursor with no iteration/close/column errors whose rows all
decode cleanly, `One` fails with exactly `ErrNoRows` when there are no
rows, fails with an error containing `ErrTooManyRows` when there are two
or more rows, and returns the single row's materialized value with nil
error when there is exactly one row. -/
theorem one_exactly_one {V T : Type} (cols : Columns V T) (c : Rows V) (zero : T)
    (hcols : c.columnsErr = none) (hie : c.iterErr = none) (hce : c.closeErr = none)
    (hok : ∀ r ∈ c.rows, (iterScan (buildPlan cols c.names) r zero).err = none) :
    (c.rows = [] → One cols c zero = ⟨zero, [ErrNoRows], 1⟩)
    ∧ (2 ≤ c.rows.length → ErrTooManyRows ∈ (One cols c zero).errs)
    ∧ (∀ r, c.rows = [r] →
        One cols c zero =
          ⟨(iterScan (buildPlan cols c.names) r zero).target, [], 1⟩) := by
  have h1 : One cols c zero =
      oneRun (buildPlan cols c.names) zero c.iterErr c.closeErr c.rows := by
    simp [One, Iter, hcols, Iterator.One]
  refine ⟨?_, ?_, ?_⟩
  · intro h
    rw [h1, h, hie, hce]
    simp [oneRun, joinErrs]
  · intro h
    rcases hr : c.rows with _ | ⟨r1, _ | ⟨r2, rest⟩⟩
    · rw [hr] at h
      simp at h
    · rw [hr] at h
      simp at h
    · have hr1 := hok r1 (by simp [hr])
      rcases hs : iterScan (buildPlan cols c.names) r1 zero with ⟨eo, t1, k⟩
      rw [hs] at hr1
      simp only [ScanEff.err] at hr1
      subst hr1
      rw [h1, hr, hie, hce]
      simp [oneRun, hs, joinErrs]
  · intro r h
    have hr1 := hok r (by simp [h])
    rcases hs : iterScan (buildPlan cols c.names) r zero with ⟨eo, t1, k⟩
    rw [hs] at hr1
    simp only [ScanEff.err] at hr1
    subst hr1
    rw [h1, h, hie, hce]
    simp [oneRun, hs, joinErrs]

/-- Witness for C2: a single-row cursor materializes 7 with nil error and
one close. -/
theorem one_exactly_one_witness :
    One [("a", fun (v : Int) (t : Int) => ((none : Option Err), v + t))]
        ⟨["a"], none, [⟨none, [7]⟩], none, none⟩ (0 : Int) = ⟨7, [], 1⟩ := by
  rw [(one_exactly_one _ _ _ rfl rfl rfl (by decide)).2.2 ⟨none, [7]⟩ rfl]
  decide

/-- When every row processes cleanly and the buffer has room for all of
them, the `Limit` loop returns them all with
`errors.Join(i.Err(), i.Close())` and one close call. -/
theorem limitLoop_ok {V T : Type} (plan : List (Option (Mutator V T))) (zero : T)
    (ie ce : Option Err) (rs : List (Row V)) (k : Nat)
    (h : ∀ r ∈ rs, (iterScan plan r zero).err = none) (hk : rs.length ≤ k) :
    limitLoop plan zero ie ce rs k =
      ⟨some (rs.map fun r => (iterScan plan r zero).target), joinErrs [ie, ce], 1⟩ := by
  induction rs generalizing k with
  | nil => simp [limitLoop]
  | cons r rest ih =>
    cases k with
    | zero => simp at hk
    | succ k1 =>
      have hr := h r (by simp)
      have hrest : ∀ x ∈ rest, (iterScan plan x zero).err = none := by
        intro x hx
        exact h x (by simp [hx])
      have hk1 : rest.length ≤ k1 := by
        simp only [List.length_cons] at hk
        omega
      rcases hs : iterScan plan r zero with ⟨eo, t1, m⟩
      rw [hs] at hr
      simp only [ScanEff.err] at hr
      subst hr
      simp [limitLoop, hs, ih k1 hrest hk1]

/-- When every row processes cleanly but more rows exist than buffer
slots, the `Limit` loop returns nil with
`errors.Join(err, i.Err(), i.Close(), ErrTooManyRows)` and one close. -/
theorem limitLoop_over {V T : Type} (plan : List (Option (Mutator V T))) (zero : T)
    (ie ce : Option Err) (rs : List (Row V)) (k : Nat)
    (h : ∀ r ∈ rs, (iterScan plan r zero).err = none) (hk : k < rs.length) :
    limitLoop plan zero ie ce rs k =
      ⟨none, joinErrs [none, ie, ce, some ErrTooManyRows], 1⟩ := by
  induction rs generalizing k with
  | nil => simp at hk
  | cons r rest ih =>
    cases k with
    | zero => simp [limitLoop]
    | succ k1 =>
      have hr := h r (by simp)
      have hrest : ∀ x ∈ rest, (iterScan plan x zero).err = none := by
        intro x hx
        exact h x (by simp [hx])
      have hk1 : k1 < rest.length := by
        simp only [List.length_cons] at hk
        omega
      rcases hs : iterScan plan r zero with ⟨eo, t1, m⟩
      rw [hs] at hr
      simp only [ScanEff.err] at hr
      subst hr
      simp [limitLoop, hs, ih k1 hrest hk1]

/-- C3: for every limit n ≥ 0 and a clean cursor yielding m rows: if
m ≤ n, `Limit` returns exactly the m materialized rows with nil error
and one close; if m > n, it fails with an error whose only (and thus
identifying) cause is `ErrTooManyRows`, again with one close. -/
theorem limit_bounded {V T : Type} (cols : Columns V T) (c : Rows V) (zero : T)
    (n : Int) (hn : 0 ≤ n) (hcols : c.columnsErr = none) (hie : c.iterErr = none)
    (hce : c.closeErr = none)
    (hok : ∀ r ∈ c.rows, (iterScan (buildPlan cols c.names) r zero).err = none) :
    ((c.rows.length : Int) ≤ n →
      Limit cols c zero n =
        .ok (some (c.rows.map fun r => (iterScan (buildPlan cols c.names) r zero).target))
          [] 1)
    ∧ (n < (c.rows.length : Int) →
      Limit cols c zero n = .ok none [ErrTooManyRows] 1) := by
  have h1 : Limit cols c zero n =
      Iterator.Limit ⟨c.rows, c.iterErr, c.closeErr, buildPlan cols c.names⟩ zero n := by
    simp [Limit, Iter, hcols]
  have hneg : ¬n < 0 := by omega
  constructor
  · intro hm
    have hk : c.rows.length ≤ n.toNat := by omega
    rw [h1, hie, hce]
    simp only [Iterator.Limit, if_neg hneg]
    rw [limitLoop_ok _ _ _ _ _ _ hok hk]
    simp [joinErrs]
  · intro hm
    have hk : n.toNat < c.rows.length := by omega
    rw [h1, hie, hce]
    simp only [Iterator.Limit, if_neg hneg]
    rw [limitLoop_over _ _ _ _ _ _ hok hk]
    simp [joinErrs]

/-- Witness for C3: a clean two-row cursor under limit 3 returns both
rows, and under limit 1 fails with `ErrTooManyRows`. -/
theorem limit_bounded_witness :
    Limit [("a", fun (v : Int) (t : Int) => ((none : Option Err), v + t))]
        ⟨["a"], none, [⟨none, [7]⟩, ⟨none, [8]⟩], none, none⟩ (0 : Int) 3
      = .ok (some [7, 8]) [] 1
    ∧ Limit [("a", fun (v : Int) (t : Int) => ((none : Option Err), v + t))]
        ⟨["a"], none, [⟨none, [7]⟩, ⟨none, [8]⟩], none, none⟩ (0 : Int) 1
      = .ok none [ErrTooManyRows] 1 := by
  constructor
  · rw [(limit_bounded _ _ _ 3 (by decide) rfl rfl rfl (by decide)).1 (by decide)]
    decide
  · rw [(limit_bounded _ _ _ 1 (by decide) rfl rfl rfl (by decide)).2 (by decide)]

/-- Filtering the column mapping with a predicate that holds at `n` does
not change what `n` looks up to. -/
theorem lookupCol_filter {V T : Type} (cols : Columns V T) (pred : String → Bool)
    (n : String) (hn : pred n = true) :
    lookupCol (cols.filter fun p => pred p.1) n = lookupCol cols n := by
  induction cols with
  | nil => rfl
  | cons hd rest ih =>
    rcases hd with ⟨k, m⟩
    by_cases hk : k = n
    · subst hk
      simp [List.filter_cons, hn, lookupCol]
    · cases hpk : pred k with
      | true => simp [List.filter_cons, hpk, lookupCol, hk, ih]
      | false => simp [List.filter_cons, hpk, lookupCol, hk, ih]

/-- Dropping the mapping entries whose name the cursor does not report
leaves the binding plan unchanged. -/
theorem buildPlan_filter {V T : Type} (cols : Columns V T) (names : List String) :
    buildPlan (cols.filter fun p => names.contains p.1) names = buildPlan cols names := by
  unfold buildPlan
  apply List.map_congr_left
  intro n hmem
  exact lookupCol_filter cols (fun s => names.contains s) n (by simpa using hmem)

/-- C6: a cursor column name absent from the mapping is bound to the
discard destination — its plan slot is `none`, and the scanner loop
reads past such a slot consuming the value with no mutation and no error
— while mapping entries whose name the cursor does not report are never
invoked: removing them all leaves `All` unchanged on every cursor. -/
theorem unmatched_columns_discarded {V T : Type} :
    (∀ (v : V) (rest : List (Option (Mutator V T) × V)) (t : T),
        applyScanners ((none, v) :: rest) t = applyScanners rest t)
    ∧ (∀ (cols : Columns V T) (names : List String) (i : Nat) (n : String),
        names[i]? = some n → lookupCol cols n = none →
        (buildPlan cols names)[i]? = some none)
    ∧ (∀ (cols : Columns V T) (c : Rows V) (zero : T),
        All (cols.filter fun p => c.names.contains p.1) c zero = All cols c zero) := by
  refine ⟨?_, ?_, ?_⟩
  · intro v rest t
    simp [applyScanners]
  · intro cols names i n hi hn
    unfold buildPlan
    rw [List.getElem?_map, hi]
    simp [hn]
  · intro cols c zero
    have hp := buildPlan_filter cols c.names
    cases hcols : c.columnsErr with
    | some e => simp only [All, Iter, hcols]
    | none => simp only [All, Iter, hcols, hp]

/-- Witness for C6: the single cursor column `a` is absent from a mapping
that only knows `b`, so position 0 of the plan is the discard slot. -/
theorem unmatched_columns_discarded_witness :
    (buildPlan [("b", fun (v : Int) (t : Int) => ((none : Option Err), v + t))]
        ["a"])[0]? = some none :=
  (@unmatched_columns_discarded Int Int).2.1 _ ["a"] 0 "a" rfl (by simp [lookupCol])

end WrogeScan
